import Mathlib

/-!
Shallow embedding of `src/arch/linux/thread_pool.hpp` (rethinkdb thread pool).

The header implements two things inline: the `generic_job_t<T>` job record
(lines 58-74) and `linux_thread_pool_t::run_in_blocker_pool` (lines 95-110).
All other members (`run`, `shutdown`, `set_interrupt_message`,
`interrupt_handler`, `linux_thread_t::initiate_shut_down`, ...) are only
declared in the header; their bodies are in a translation unit not present
here, so those operations are modelled from the spec, each marked
`Modelled from the spec:` in its doc comment.

C++ exceptions are embedded as `Except E`: a function `boost::function<T()>`
that may throw is `Unit → Except E T`; `T retval;` (default-constructed
storage that is overwritten by `run()`) is a field of type `T` with an
`Inhabited` default.
-/

/-- Embedding of `linux_thread_pool_t::generic_job_t<T>` (thread_pool.hpp:58-74):
a blocker-pool job record pairing the submitted function `fn`, the handle
`suspended` of the coroutine to resume (modelled as a coroutine id), and the
result slot `retval` (`T retval;` in C++ is default-constructed storage). -/
structure generic_job_t (E T : Type) [Inhabited T] where
  fn : Unit → Except E T
  suspended : Nat
  retval : T := default

/-- Embedding of `generic_job_t::run` (thread_pool.hpp:62-64): `retval = fn();`.
If `fn` returns normally the result is stored into `retval`; if `fn` throws,
the assignment never happens and the exception escapes `run()` on the worker
thread (`.error e`). -/
def generic_job_t.runJob {E T : Type} [Inhabited T] (j : generic_job_t E T) :
    Except E (generic_job_t E T) :=
  match j.fn () with
  | .ok v => .ok { j with retval := v }
  | .error e => .error e

/-- Embedding of `generic_job_t::done` (thread_pool.hpp:66-69): returns the id
of the suspended coroutine that `suspended->notify()` notifies. -/
def generic_job_t.doneNotify {E T : Type} [Inhabited T]
    (j : generic_job_t E T) : Nat :=
  j.suspended

/-- Outcome of the worker pool processing one job. -/
inductive WorkerOutcome (E T : Type) [Inhabited T] where
  | completed (job : generic_job_t E T) (notified : Nat)
  | escaped (e : E)

/-- Modelled from the spec: `blocker_pool_t::do_job` is not under src/ (only
`arch/linux/blocker_pool.hpp` is included). Per spec section 6, the worker pool
runs the submitted job on one of its own threads (`job.run()`) and then invokes
the completion callback (`job.done()`), which notifies the suspended coroutine.
If the function throws, the exception escapes `run()` on the worker thread and
the completion path that calls `done()` is never reached. -/
def do_job {E T : Type} [Inhabited T] (j : generic_job_t E T) :
    WorkerOutcome E T :=
  match j.runJob with
  | .ok j' => .completed j' j'.doneNotify
  | .error e => .escaped e

/-- Observable events of one bridged blocking call, in the order they occur. -/
inductive BridgeEvent where
  /-- `thread_pool->generic_blocker_pool->do_job(&job)` (thread_pool.hpp:104). -/
  | submit
  /-- the worker thread executes `fn` inside `job.run()` (thread_pool.hpp:63). -/
  | callFn
  /-- `done()` runs `suspended->notify()` for coroutine `c` (thread_pool.hpp:68). -/
  | notifyCoro (c : Nat)
  /-- the calling coroutine `c` resumes from `coro_t::wait()` (thread_pool.hpp:107). -/
  | resume (c : Nat)
deriving DecidableEq, BEq, Repr

/-- What the call site of `run_in_blocker_pool` observes. -/
inductive BridgeResult (E T : Type) where
  /-- `return job.retval;` (thread_pool.hpp:109). -/
  | value (v : T)
  /-- the `rassert` at thread_pool.hpp:102-103 fired: fatal, not recoverable. -/
  | assertionFailure (msg : String)
  /-- `fn` threw on the worker thread: `done()` never ran, the coroutine was
  never notified, and the exception escaped on the worker thread. -/
  | neverResumed (e : E)
deriving DecidableEq, Repr

/-- Embedding of `linux_thread_pool_t::run_in_blocker_pool`
(thread_pool.hpp:95-110), paired with the trace of events of the call.
`generic_blocker_pool` is `none` when the member pointer is NULL. The straight
line of the source: build `job` with `fn` and `suspended = coro_t::self()`,
`rassert` the pool is initialized, `do_job(&job)`, `coro_t::wait()`, and return
`job.retval`. -/
def run_in_blocker_pool {E T : Type} [Inhabited T]
    (generic_blocker_pool : Option Unit) (fn : Unit → Except E T)
    (self : Nat) : BridgeResult E T × List BridgeEvent :=
  match generic_blocker_pool with
  | none =>
      (.assertionFailure
        "thread_pool_t::run_in_blocker_pool called while generic_thread_pool uninitialized",
       [])
  | some _ =>
      let job : generic_job_t E T := { fn := fn, suspended := self }
      match do_job job with
      | .completed j' notified =>
          (.value j'.retval,
           [.submit, .callFn, .notifyCoro notified, .resume self])
      | .escaped e =>
          (.neverResumed e, [.submit, .callFn])

/-- `true` exactly when the bridge call died on the `rassert` at
thread_pool.hpp:102-103. -/
def BridgeResult.isAssertionFailure {E T : Type} : BridgeResult E T → Bool
  | .assertionFailure _ => true
  | _ => false

/-- C1: for a zero-argument function `g` returning a value of type `T` (embedded
as the non-throwing `fun u => .ok (g u)`), `run_in_blocker_pool` on an
initialized pool returns exactly `g ()` to the caller; the trace shows `fn`
executed exactly once on the worker thread (one `callFn` event), the
completion notifying the suspended coroutine, and the caller resuming only
afterwards (the sole `callFn` is at position 1, the `resume` at position 3). -/
theorem thm_C1 {T : Type} [Inhabited T] (g : Unit → T) (self : Nat) :
    run_in_blocker_pool (E := String) (some ()) (fun u => .ok (g u)) self
      = (.value (g ()),
         [.submit, .callFn, .notifyCoro self, .resume self])
    ∧ (run_in_blocker_pool (E := String) (some ())
        (fun u => .ok (g u)) self).2.count .callFn = 1
    ∧ ∀ i j : Nat,
        (run_in_blocker_pool (E := String) (some ())
          (fun u => .ok (g u)) self).2[i]? = some .callFn →
        (run_in_blocker_pool (E := String) (some ())
          (fun u => .ok (g u)) self).2[j]? = some (.resume self) →
        i < j := by
  refine ⟨rfl, rfl, ?_⟩
  intro i j hi hj
  have htrace : (run_in_blocker_pool (E := String) (some ())
      (fun u => .ok (g u)) self).2
      = [.submit, .callFn, .notifyCoro self, .resume self] := rfl
  rw [htrace] at hi hj
  have hi' : i = 1 := by
    rcases i with _ | _ | _ | _ | i
    · simp at hi
    · rfl
    · simp at hi
    · simp at hi
    · simp at hi
  have hj' : j = 3 := by
    rcases j with _ | _ | _ | _ | j
    · simp at hj
    · simp at hj
    · simp at hj
    · rfl
    · simp at hj
  omega

/-- Witness for C1 at a concrete input: the inner ordering hypotheses are
discharged at the concrete trace positions 1 and 3. -/
theorem thm_C1_witness :
    run_in_blocker_pool (E := String) (some ())
        (fun _ => .ok (41 + 1)) 0
      = (.value 42, [.submit, .callFn, .notifyCoro 0, .resume 0])
    ∧ (1 : Nat) < 3 := by
  refine ⟨(thm_C1 (fun _ => 41 + 1) 0).1, ?_⟩
  exact (thm_C1 (fun _ => 41 + 1) 0).2.2 1 3 rfl rfl

/-- C2 (failing input): submit a function that throws (`fun _ => .error "boom"`)
through the initialized bridge. The call site never sees the failure: the
result is `.neverResumed "boom"` — `generic_job_t` has no error slot, `run()`
(`retval = fn();`, thread_pool.hpp:63) stores nothing when `fn` throws, the
exception escapes on the worker thread, `done()` never notifies the coroutine
(no `.notifyCoro`/`.resume` event in the trace), and `run_in_blocker_pool` has
no channel through which the failure could surface at its call site. The
spec's requirement that the failure propagate to the resumed coroutine's call
site is not implemented by the code. -/
theorem thm_C2 :
    run_in_blocker_pool (E := String) (T := Nat) (some ())
        (fun _ => .error "boom") 7
      = (.neverResumed "boom", [.submit, .callFn]) := by
  rfl

/-- C7: calling `run_in_blocker_pool` while `generic_blocker_pool` is NULL
(`none`) fires the fatal `rassert` (thread_pool.hpp:102-103); under the
precondition that the pool is initialized (`some ()`), the assertion branch is
unreachable for every submitted function, throwing or not. -/
theorem thm_C7 {E T : Type} [Inhabited T] (fn : Unit → Except E T)
    (self : Nat) :
    (run_in_blocker_pool none fn self).1.isAssertionFailure = true
    ∧ (run_in_blocker_pool (some ()) fn self).1.isAssertionFailure = false := by
  constructor
  · rfl
  · cases h : fn () with
    | ok v =>
        simp [run_in_blocker_pool, do_job, generic_job_t.runJob, h,
          BridgeResult.isAssertionFailure]
    | error e =>
        simp [run_in_blocker_pool, do_job, generic_job_t.runJob, h,
          BridgeResult.isAssertionFailure]

/-- Witness for C7: `isAssertionFailure` is not a hypothesis, but the theorem
quantifies over `fn`; evaluate both branches at a concrete function. -/
theorem thm_C7_witness :
    (run_in_blocker_pool (E := String) (T := Nat) none
        (fun _ => .ok 5) 0).1.isAssertionFailure = true
    ∧ (run_in_blocker_pool (E := String) (T := Nat) (some ())
        (fun _ => .ok 5) 0).1.isAssertionFailure = false :=
  thm_C7 (fun _ => .ok 5) 0

/-! ## Interrupt-message slot

`set_interrupt_message` and `interrupt_handler` are declared at
thread_pool.hpp:29 and thread_pool.hpp:44 but their bodies are not under src/.
They are modelled from the spec and from the header comment
(thread_pool.hpp:25-28): on SIGINT/SIGTERM the pending `interrupt_message` is
delivered and the slot is set to NULL; `set_interrupt_message` returns the
previous value. The slot is a `linux_thread_message_t *`, NULL meaning empty,
embedded as `Option Msg`. -/

/-- Modelled from the spec: the body of
`linux_thread_pool_t::set_interrupt_message` is not under src/ (declaration at
thread_pool.hpp:29). Per spec section 4.1 it atomically replaces the single
pending-interrupt slot with `m` and returns the previous value. The result is
`(returned previous value, new slot contents)`. -/
def set_interrupt_message {Msg : Type} (interrupt_message : Option Msg)
    (m : Option Msg) : Option Msg × Option Msg :=
  (interrupt_message, m)

/-- Modelled from the spec: the body of
`linux_thread_pool_t::interrupt_handler` is not under src/ (declaration at
thread_pool.hpp:44). Per the header comment (thread_pool.hpp:25-28) and spec
section 4.1, on an interrupt signal the handler atomically consumes the slot:
it delivers the pending message (if any) through the message hub and resets
the slot to NULL. The result is `(delivered message, new slot contents)`. -/
def interrupt_handler {Msg : Type} (interrupt_message : Option Msg) :
    Option Msg × Option Msg :=
  (interrupt_message, none)

/-- Messages actually delivered across `k` consecutive interrupt signals with
no intervening `set_interrupt_message` re-registration, starting from slot
contents `slot`. -/
def signals_delivered {Msg : Type} : Option Msg → Nat → List Msg
  | _, 0 => []
  | slot, k + 1 =>
      let r := interrupt_handler slot
      r.1.toList ++ signals_delivered r.2 k

/-- An empty slot delivers nothing, however many signals arrive. -/
theorem signals_delivered_none {Msg : Type} (k : Nat) :
    signals_delivered (none : Option Msg) k = [] := by
  induction k with
  | zero => rfl
  | succ k ih => simpa [signals_delivered, interrupt_handler] using ih

/-- C3: `set_interrupt_message(m1)` followed by `set_interrupt_message(m2)`
returns `m1` from the second call (regardless of the initial slot contents),
and in general each call returns the slot's previous value while installing
its argument as the new slot contents. -/
theorem thm_C3 {Msg : Type} (slot m1 m2 : Option Msg) :
    (set_interrupt_message (set_interrupt_message slot m1).2 m2).1 = m1
    ∧ (set_interrupt_message slot m1).1 = slot
    ∧ (set_interrupt_message slot m1).2 = m1 :=
  ⟨rfl, rfl, rfl⟩

/-- C4: consuming the interrupt slot clears it. With a pending message `m` and
`k + 1` interrupt signals arriving with no re-registration, exactly the one
message `m` is delivered (in particular two signals deliver it once); the
second signal finds the slot empty and delivers nothing. -/
theorem thm_C4 {Msg : Type} (m : Msg) (k : Nat) :
    signals_delivered (some m) (k + 1) = [m]
    ∧ (interrupt_handler ((interrupt_handler (some m)).2)).1
        = (none : Option Msg) := by
  refine ⟨?_, rfl⟩
  simp [signals_delivered, interrupt_handler, signals_delivered_none]

/-! ## Pool-wide shutdown

`shutdown` is declared at thread_pool.hpp:37; its body is not under src/.
The header declares the state it manipulates: the `volatile bool do_shutdown`
flag (hpp:50) and the `shutdown_cond` condition variable with its mutex
(hpp:51-52), "used to signal the main thread for shutdown" (hpp:49). -/

/-- The pool-wide shutdown state: the `do_shutdown` flag (thread_pool.hpp:50)
and the number of times `shutdown_cond` (thread_pool.hpp:51) has been
signaled. -/
structure PoolShutdownState where
  do_shutdown : Bool
  cond_signals : Nat
deriving DecidableEq, Repr

/-- Modelled from the spec: the body of `linux_thread_pool_t::shutdown` is not
under src/ (declaration at thread_pool.hpp:37). Per spec section 4.1 it sets
the pool-wide shutdown flag and signals the condition variable exactly once
per shutdown cycle, and is a no-op once shutdown has already been observed. -/
def shutdown (s : PoolShutdownState) : PoolShutdownState :=
  if s.do_shutdown then s
  else { do_shutdown := true, cond_signals := s.cond_signals + 1 }

/-- The pool-wide shutdown state as `run` enters its wait: flag clear, the
condition variable not yet signaled. -/
def pool_start : PoolShutdownState :=
  { do_shutdown := false, cond_signals := 0 }

/-- Modelled from the spec: `run` (declared thread_pool.hpp:34) blocks on
`shutdown_cond` and returns once the shutdown flag is observed set; whether
`run` returns is read off the flag. -/
def run_returns (s : PoolShutdownState) : Bool :=
  s.do_shutdown

/-- Any positive number of `shutdown` calls starting from `pool_start` leaves
the flag set and the condition variable signaled exactly once. -/
theorem shutdown_iterate_eq (n : Nat) :
    shutdown^[n + 1] pool_start
      = { do_shutdown := true, cond_signals := 1 } := by
  induction n with
  | zero => rfl
  | succ n ih =>
      rw [Function.iterate_succ_apply', ih]
      rfl

/-- C5: `shutdown()` is idempotent — once shutdown has been observed
(`do_shutdown = true`) a further call is a no-op, and
`shutdown (shutdown s) = shutdown s` for every state; moreover however many
calls (from however many threads, serialized by `shutdown_cond_mutex`) are
made from the initial state, the condition variable is signaled exactly once
per shutdown cycle and `run` returns (exactly once, since it is a single
blocked call that wakes). -/
theorem thm_C5 (s : PoolShutdownState) (n : Nat) :
    (s.do_shutdown = true → shutdown s = s)
    ∧ shutdown (shutdown s) = shutdown s
    ∧ (shutdown^[n + 1] pool_start).cond_signals = 1
    ∧ run_returns (shutdown^[n + 1] pool_start) = true := by
  refine ⟨fun h => by simp [shutdown, h], ?_, ?_, ?_⟩
  · by_cases h : s.do_shutdown
    · simp [shutdown, h]
    · simp [shutdown, h]
  · rw [shutdown_iterate_eq]
  · rw [shutdown_iterate_eq]
    rfl

/-- Witness for C5: discharge the already-observed-shutdown hypothesis at the
concrete state `⟨true, 1⟩`. -/
theorem thm_C5_witness :
    shutdown { do_shutdown := true, cond_signals := 1 }
        = { do_shutdown := true, cond_signals := 1 }
    ∧ (shutdown^[3] pool_start).cond_signals = 1 :=
  ⟨(thm_C5 { do_shutdown := true, cond_signals := 1 } 0).1 rfl,
   (thm_C5 { do_shutdown := true, cond_signals := 1 } 2).2.2.1⟩

/-! ## Per-thread shutdown and the event loop -/

/-- Operations a `linux_thread_t`'s state goes through while its event loop
runs: `initiate_shut_down` (thread_pool.hpp:132, callable from any thread),
`pump` (hpp:130) and `on_event` (hpp:133) invoked by the event queue. -/
inductive ThreadOp where
  | initiate_shut_down
  | pump
  | on_event (events : Nat)
deriving DecidableEq, Repr

/-- Per-thread shutdown state: the thread-local `do_shutdown` flag
(thread_pool.hpp:136) and whether `shutdown_notify_event` (hpp:138) has been
signaled to wake the loop. -/
structure ThreadShutdownState where
  do_shutdown : Bool
  notify_signaled : Bool
deriving DecidableEq, Repr

/-- Modelled from the spec: the bodies of `linux_thread_t`'s members are not
under src/ (declarations at thread_pool.hpp:130-133). Per spec section 4.2,
`initiate_shut_down` sets the local shutdown flag under its guarding lock and
wakes the thread's event loop via its notification primitive; `pump` drains
ready events and `on_event` dispatches the wake-up — neither ever clears the
shutdown flag. -/
def thread_step (s : ThreadShutdownState) (op : ThreadOp) :
    ThreadShutdownState :=
  match op with
  | .initiate_shut_down => { do_shutdown := true, notify_signaled := true }
  | .pump => s
  | .on_event _ => s

/-- Modelled from the spec: `should_shut_down` (declared thread_pool.hpp:131)
is polled by the event queue and returns true once the local shutdown flag has
been set. -/
def should_shut_down (s : ThreadShutdownState) : Bool :=
  s.do_shutdown

/-- A single loop step never clears a set shutdown flag. -/
theorem thread_step_mono (s : ThreadShutdownState) (op : ThreadOp)
    (h : s.do_shutdown = true) : (thread_step s op).do_shutdown = true := by
  cases op with
  | initiate_shut_down => rfl
  | pump => exact h
  | on_event e => exact h

/-- C6: shutdown is monotonic. Once a thread's local `do_shutdown` flag has
been set by `initiate_shut_down`, no sequence of further event-loop operations
ever clears it (and `should_shut_down` stays true); and once the pool-wide
shutdown condition has been signaled (`cond_signals ≥ 1` in any state reached
from `pool_start` by `shutdown` calls), the flag `run` waits on is set, so
`run` returns. -/
theorem thm_C6 (s : ThreadShutdownState) (ops : List ThreadOp) (n : Nat)
    (h : s.do_shutdown = true) :
    (ops.foldl thread_step s).do_shutdown = true
    ∧ should_shut_down (ops.foldl thread_step s) = true
    ∧ (1 ≤ (shutdown^[n] pool_start).cond_signals →
        run_returns (shutdown^[n] pool_start) = true) := by
  have hmono : (ops.foldl thread_step s).do_shutdown = true := by
    induction ops generalizing s with
    | nil => exact h
    | cons op rest ih =>
        exact ih (thread_step s op) (thread_step_mono s op h)
  refine ⟨hmono, hmono, ?_⟩
  intro hsig
  cases n with
  | zero => simp [pool_start] at hsig
  | succ n =>
      rw [shutdown_iterate_eq]
      rfl

/-- Witness for C6: discharge the set-flag hypothesis and the signaled
hypothesis at concrete inputs. -/
theorem thm_C6_witness :
    (([ThreadOp.pump, ThreadOp.on_event 3,
        ThreadOp.pump]).foldl thread_step
      { do_shutdown := true, notify_signaled := true }).do_shutdown = true
    ∧ run_returns (shutdown^[2] pool_start) = true :=
  ⟨(thm_C6 { do_shutdown := true, notify_signaled := true }
      [ThreadOp.pump, ThreadOp.on_event 3, ThreadOp.pump] 2 rfl).1,
   (thm_C6 { do_shutdown := true, notify_signaled := true }
      [ThreadOp.pump, ThreadOp.on_event 3, ThreadOp.pump] 2 rfl).2.2
      (by rw [shutdown_iterate_eq 1])⟩

/-! ## Startup ordering of `run` -/

/-- Observable events of `linux_thread_pool_t::run` during startup. -/
inductive RunEvent where
  /-- thread `i`'s event queue has been started and can receive messages. -/
  | start_queue (i : Nat)
  /-- `initial_message` is delivered to its designated thread. -/
  | deliver_initial
deriving DecidableEq, BEq, Repr

/-- Modelled from the spec: the body of `linux_thread_pool_t::run` is not
under src/ (declaration at thread_pool.hpp:34). Per the header comment
(thread_pool.hpp:31-33) and spec section 4.1, `run` starts all `n` per-thread
event queues and delivers `initial_message` to its designated thread only
after all of the event queues have been started. -/
def run_trace (n : Nat) : List RunEvent :=
  (List.range n).map RunEvent.start_queue ++ [RunEvent.deliver_initial]

/-- Positions below `n` in the run trace hold the queue startups, in order. -/
theorem run_trace_get_lt (n k : Nat) (h : k < n) :
    (run_trace n)[k]? = some (RunEvent.start_queue k) := by
  unfold run_trace
  rw [List.getElem?_append_left (by simpa using h)]
  simp [List.getElem?_range h]

/-- Position `n` in the run trace is the initial-message delivery. -/
theorem run_trace_get_n (n : Nat) :
    (run_trace n)[n]? = some RunEvent.deliver_initial := by
  unfold run_trace
  rw [List.getElem?_append_right (by simp)]
  simp

/-- The run trace ends after the initial-message delivery. -/
theorem run_trace_get_gt (n j : Nat) (h : n < j) :
    (run_trace n)[j]? = none := by
  apply List.getElem?_eq_none
  simp [run_trace]
  omega

/-- C8: in `run(initial_message)`, the initial message is delivered only after
every pool thread's event queue is live. In the startup trace for `n`
threads: every queue startup sits at its own index `k < n`; the sole delivery
of the initial message sits at index `n`; hence every `start_queue` event
strictly precedes the `deliver_initial` event, and no message is delivered
before the receiving thread can pump it. -/
theorem thm_C8 (n j k : Nat) :
    ((run_trace n)[j]? = some (RunEvent.start_queue k) → j = k ∧ k < n)
    ∧ ((run_trace n)[j]? = some RunEvent.deliver_initial → j = n)
    ∧ (k < n → (run_trace n)[k]? = some (RunEvent.start_queue k))
    ∧ (run_trace n)[n]? = some RunEvent.deliver_initial
    ∧ ((run_trace n)[j]? = some RunEvent.deliver_initial →
        ∀ i m : Nat, (run_trace n)[i]? = some (RunEvent.start_queue m) →
          i < j) := by
  have hsq : ∀ j' k' : Nat,
      (run_trace n)[j']? = some (RunEvent.start_queue k') → j' = k' ∧ k' < n := by
    intro j' k' h
    rcases lt_trichotomy j' n with hlt | heq | hgt
    · rw [run_trace_get_lt n j' hlt] at h
      cases h
      exact ⟨rfl, hlt⟩
    · rw [heq, run_trace_get_n] at h
      cases h
    · rw [run_trace_get_gt n j' hgt] at h
      cases h
  have hdi : ∀ j' : Nat,
      (run_trace n)[j']? = some RunEvent.deliver_initial → j' = n := by
    intro j' h
    rcases lt_trichotomy j' n with hlt | heq | hgt
    · rw [run_trace_get_lt n j' hlt] at h
      cases h
    · exact heq
    · rw [run_trace_get_gt n j' hgt] at h
      cases h
  refine ⟨hsq j k, hdi j, run_trace_get_lt n k, run_trace_get_n n, ?_⟩
  intro hj i m hi
  have hjn := hdi j hj
  rcases hsq i m hi with ⟨hik, hkn⟩
  omega

/-- Witness for C8 at `n = 2`: queue 1 starts at position 1, the initial
message is delivered at position 2, and the delivery follows the startup. -/
theorem thm_C8_witness :
    (run_trace 2)[1]? = some (RunEvent.start_queue 1)
    ∧ ((run_trace 2)[2]? = some RunEvent.deliver_initial)
    ∧ (1 : Nat) < 2 :=
  ⟨(thm_C8 2 1 1).2.2.1 (by decide),
   (thm_C8 2 2 0).2.2.2.1,
   (thm_C8 2 2 1).2.2.2.2 (thm_C8 2 2 0).2.2.2.1 1 1
     ((thm_C8 2 1 1).2.2.1 (by decide))⟩

/-! ## Completion routing of the Blocking Bridge -/

/-- System-level operations around one bridged call: the worker finishing the
job (posting the completion for the coroutine suspended on pool thread
`origin`), and a pool thread `t` pumping its own message hub. -/
inductive HubOp where
  | worker_done (origin : Nat)
  | pump (t : Nat)
deriving DecidableEq, Repr

/-- Routing state of one bridged call's completion notification: `pending` is
the pool thread whose message hub currently holds the notification (none when
not yet posted or already consumed); `resumed_on` is the pool thread whose
scheduler actually performed the resume, once it has happened. -/
structure NotifyState where
  pending : Option Nat
  resumed_on : Option Nat
deriving DecidableEq, Repr

/-- Before the worker finishes: nothing posted, nothing resumed. -/
def notify_init : NotifyState :=
  { pending := none, resumed_on := none }

/-- Modelled from the spec: `coro_t::notify` and the blocker pool's completion
routing are not under src/ (the header only shows `done()` calling
`suspended->notify()`, thread_pool.hpp:66-69). Per spec section 4.3, the
completion callback's notification is delivered back onto the originating
thread's scheduler — posted into that thread's message hub — and the
originating thread, on its own pump cycle, performs the actual resume; the
worker never resumes the coroutine inline. -/
def notify_step (s : NotifyState) (op : HubOp) : NotifyState :=
  match op with
  | .worker_done origin => { s with pending := some origin }
  | .pump t =>
      match s.pending with
      | some p =>
          if p = t then { pending := none, resumed_on := some t } else s
      | none => s

/-- Invariant carried through any operation sequence in which every completion
posting names the originating thread `origin`: the pending notification only
ever sits in `origin`'s hub, and any performed resume happened on `origin`. -/
theorem notify_invariant (origin : Nat) (ops : List HubOp) (s : NotifyState)
    (hops : ∀ o : Nat, HubOp.worker_done o ∈ ops → o = origin)
    (hp : ∀ p : Nat, s.pending = some p → p = origin)
    (hr : ∀ t : Nat, s.resumed_on = some t → t = origin) :
    (∀ p : Nat, (ops.foldl notify_step s).pending = some p → p = origin)
    ∧ (∀ t : Nat, (ops.foldl notify_step s).resumed_on = some t →
        t = origin) := by
  induction ops generalizing s with
  | nil => exact ⟨hp, hr⟩
  | cons op rest ih =>
      have hops' : ∀ o : Nat, HubOp.worker_done o ∈ rest → o = origin :=
        fun o ho => hops o (List.mem_cons_of_mem op ho)
      apply ih (notify_step s op) hops'
      · intro p hpend
        cases op with
        | worker_done o =>
            have : o = p := by
              simp [notify_step] at hpend
              exact hpend
            exact this ▸ hops o (List.mem_cons_self _ _)
        | pump t =>
            cases hps : s.pending with
            | none =>
                simp [notify_step, hps] at hpend
            | some q =>
                by_cases hqt : q = t
                · simp [notify_step, hps, hqt] at hpend
                · apply hp
                  simpa [notify_step, hps, hqt] using hpend
      · intro t hres
        cases op with
        | worker_done o =>
            apply hr
            simpa [notify_step] using hres
        | pump t' =>
            cases hps : s.pending with
            | none =>
                apply hr
                simpa [notify_step, hps] using hres
            | some q =>
                by_cases hqt : q = t'
                · have htt' : t' = t := by
                    simpa [notify_step, hps, hqt] using hres
                  exact htt' ▸ hqt ▸ hp q hps
                · apply hr
                  simpa [notify_step, hps, hqt] using hres

/-- C9: the resumption of a coroutine suspended in `run_in_blocker_pool`
happens on the pool thread it suspended on, never inline on a worker thread:
for every operation sequence in which the completion is posted for
originating thread `origin`, any recorded resume happened on `origin` (first
conjunct); and the worker's own `worker_done` step never performs a resume —
it only posts the notification into `origin`'s hub, leaving the resume to
that thread's pump cycle (second conjunct). -/
theorem thm_C9 (ops : List HubOp) (origin : Nat)
    (hops : ∀ o : Nat, HubOp.worker_done o ∈ ops → o = origin) :
    (∀ t : Nat, (ops.foldl notify_step notify_init).resumed_on = some t →
        t = origin)
    ∧ ∀ s : NotifyState, ∀ o : Nat,
        (notify_step s (HubOp.worker_done o)).resumed_on = s.resumed_on := by
  constructor
  · exact (notify_invariant origin ops notify_init hops
      (fun p hp => by cases hp) (fun t ht => by cases ht)).2
  · intro s o
    rfl

/-- Witness for C9: worker posts the completion for origin thread 2; pumping
thread 1 does nothing, pumping thread 2 performs the resume, on thread 2. -/
theorem thm_C9_witness :
    ([HubOp.worker_done 2, HubOp.pump 1,
        HubOp.pump 2].foldl notify_step notify_init).resumed_on = some 2
    ∧ (2 : Nat) = 2 := by
  refine ⟨by decide, ?_⟩
  exact (thm_C9 [HubOp.worker_done 2, HubOp.pump 1, HubOp.pump 2] 2
    (fun o ho => by simpa using ho)).1 2 (by decide)

/-! ## Thread-local identity triple -/

/-- The thread-local identity of a pool thread, plus the per-thread state the
event loop does mutate: `thread_pool_threads` stands for the owning pool's
`threads` array (`linux_thread_t *threads[MAX_THREADS]`, thread_pool.hpp:78,
contexts modelled by their addresses); `thread_id` is the thread-local id
(thread_pool.hpp:88); `thread` is the thread-local context pointer
(thread_pool.hpp:90); `do_shutdown` is the loop-mutable local flag
(thread_pool.hpp:136). -/
structure ThreadLocals where
  thread_pool_threads : List Nat
  thread_id : Nat
  thread : Nat
  do_shutdown : Bool
deriving DecidableEq, Repr

/-- Modelled from the spec: the body of `linux_thread_pool_t::start_thread`
(declared thread_pool.hpp:42) is not under src/. Per spec section 3, a pool
thread publishes the thread-local identity triple — owning pool, local thread
id, and local context — together, before it enters its event loop; the header
comment (thread_pool.hpp:89) states the context pointer is the entry
`thread_pool->threads[thread_id]`. -/
def start_thread (pool_threads : List Nat) (i : Nat) : ThreadLocals :=
  { thread_pool_threads := pool_threads
    thread_id := i
    thread := pool_threads.getD i 0
    do_shutdown := false }

/-- Modelled from the spec: one step of the thread's event loop on its full
local state. `initiate_shut_down` sets the local shutdown flag; `pump` and
`on_event` dispatch events; per spec section 3 none of them writes the
thread-local identity triple, which remains fixed for the thread's
lifetime. -/
def loop_step (s : ThreadLocals) (op : ThreadOp) : ThreadLocals :=
  match op with
  | .initiate_shut_down => { s with do_shutdown := true }
  | .pump => s
  | .on_event _ => s

/-- A single loop step keeps the identity triple intact. -/
theorem loop_step_keeps_identity (s : ThreadLocals) (op : ThreadOp) :
    (loop_step s op).thread_pool_threads = s.thread_pool_threads
    ∧ (loop_step s op).thread_id = s.thread_id
    ∧ (loop_step s op).thread = s.thread := by
  cases op with
  | initiate_shut_down => exact ⟨rfl, rfl, rfl⟩
  | pump => exact ⟨rfl, rfl, rfl⟩
  | on_event e => exact ⟨rfl, rfl, rfl⟩

/-- C10: on a pool thread with a valid id `i`, after `start_thread` publishes
the identity triple and the event loop runs any sequence of operations, the
three thread-local identity variables are mutually consistent and unchanged:
the id is still `i`, the pool's context array is still the one published, the
thread-local context pointer equals the owning pool's context array entry at
the thread-local id, and it is the entry at `i` of the original array. -/
theorem thm_C10 (pool_threads : List Nat) (i : Nat) (ops : List ThreadOp)
    (h : i < pool_threads.length) :
    ((ops.foldl loop_step (start_thread pool_threads i)).thread_id = i)
    ∧ ((ops.foldl loop_step
        (start_thread pool_threads i)).thread_pool_threads = pool_threads)
    ∧ ((ops.foldl loop_step (start_thread pool_threads i)).thread
        = (ops.foldl loop_step
            (start_thread pool_threads i)).thread_pool_threads.getD
              ((ops.foldl loop_step
                (start_thread pool_threads i)).thread_id) 0)
    ∧ ((ops.foldl loop_step (start_thread pool_threads i)).thread
        = pool_threads[i]) := by
  have hkeep : ∀ (s : ThreadLocals) (l : List ThreadOp),
      (l.foldl loop_step s).thread_pool_threads = s.thread_pool_threads
      ∧ (l.foldl loop_step s).thread_id = s.thread_id
      ∧ (l.foldl loop_step s).thread = s.thread := by
    intro s l
    induction l generalizing s with
    | nil => exact ⟨rfl, rfl, rfl⟩
    | cons op rest ih =>
        rcases ih (loop_step s op) with ⟨h1, h2, h3⟩
        rcases loop_step_keeps_identity s op with ⟨k1, k2, k3⟩
        exact ⟨by rw [List.foldl_cons, h1, k1],
               by rw [List.foldl_cons, h2, k2],
               by rw [List.foldl_cons, h3, k3]⟩
  rcases hkeep (start_thread pool_threads i) ops with ⟨h1, h2, h3⟩
  refine ⟨by rw [h2]; rfl, by rw [h1]; rfl, ?_, ?_⟩
  · rw [h1, h2, h3]
    rfl
  · rw [h3]
    show pool_threads.getD i 0 = pool_threads[i]
    exact List.getD_eq_getElem pool_threads 0 h

/-- Witness for C10: a pool of three contexts, thread id 1, a loop that pumps,
shuts down and pumps again; the identity triple is intact and consistent. -/
theorem thm_C10_witness :
    (1 : Nat) < ([10, 11, 12] : List Nat).length
    ∧ (([ThreadOp.pump, ThreadOp.initiate_shut_down,
          ThreadOp.on_event 5].foldl loop_step
        (start_thread [10, 11, 12] 1)).thread = 11) := by
  refine ⟨by decide, ?_⟩
  have h := (thm_C10 [10, 11, 12] 1
    [ThreadOp.pump, ThreadOp.initiate_shut_down, ThreadOp.on_event 5]
    (by decide)).2.2.2
  simpa using h
